import Mathlib

/-!
Shallow embedding of the robot-controller TCP server
(src/util.rs and src/robot.rs) and verification of the frozen claims.

Strings on the wire are modelled as lists of byte values (`List Nat`,
each < 256).  Machine integers are `Nat`/`Int` with explicit `% 2^16`
where the source uses 16-bit wrapping arithmetic.  Fallible Rust code
returns `Option`-like result types; a Rust `panic!`/`unwrap()` failure
is modelled as an explicit `panic`-style constructor of the result type.
-/

namespace RobotTcp

/-- Key table `SERVER_KEYS` from src/util.rs line 3. -/
def SERVER_KEYS : List Nat := [23019, 32037, 18789, 16443, 18189]

/-- Key table `CLIENT_KEYS` from src/util.rs line 4. -/
def CLIENT_KEYS : List Nat := [32037, 29295, 13603, 29533, 21952]

/-- `ServerMessage` from src/util.rs lines 7-20. -/
inductive ServerMessage where
  | Confirmation (n : Nat)
  | Move
  | TurnLeft
  | TurnRight
  | PickUp
  | Logout
  | KeyRequest
  | OK
  | LoginFailed
  | SyntaxError
  | LogicError
  | KeyOutOfRangeError
deriving DecidableEq

/-- `ClientMessage` from src/util.rs lines 45-51.  The Rust `String`
payload is a byte list here. -/
inductive ClientMessage where
  | String (s : List Nat)
  | Number (n : Nat)
  | Ok (x y : Int)
  | Recharging
  | FullPower
deriving DecidableEq

/-- Bytes of an ASCII string literal (used to transcribe the string
literals appearing in the source). -/
def strB (s : String) : List Nat := s.toList.map Char.toNat

/-- Rust `str::is_ascii` on the byte list. -/
def isAsciiL (l : List Nat) : Bool := l.all (· < 128)

/-- Rust `str::split(sep)` for a one-byte separator: the list of
fields, where `n` separators always yield `n + 1` fields (possibly
empty), and the empty input yields one empty field. -/
def splitChar (sep : Nat) : List Nat → List (List Nat)
  | [] => [[]]
  | c :: rest =>
    if c = sep then [] :: splitChar sep rest
    else
      match splitChar sep rest with
      | t :: ts => (c :: t) :: ts
      | [] => [[c]]

/-- Value of a nonempty all-digit byte list; `none` otherwise
(the digit-string core shared by the Rust integer `FromStr` parsers). -/
def digitsToNat? (l : List Nat) : Option Nat :=
  if l = [] then none
  else if l.all (fun c => 48 ≤ c && c ≤ 57) then
    some (l.foldl (fun a c => a * 10 + (c - 48)) 0)
  else none

/-- Rust `str::parse::<i32>()`: optional sign, one or more digits,
result within the signed 32-bit range. -/
def parseI32 (l : List Nat) : Option Int :=
  match l with
  | 43 :: rest =>
    (digitsToNat? rest).bind fun n =>
      if n ≤ 2 ^ 31 - 1 then some (n : Int) else none
  | 45 :: rest =>
    (digitsToNat? rest).bind fun n =>
      if n ≤ 2 ^ 31 then some (-(n : Int)) else none
  | _ =>
    (digitsToNat? l).bind fun n =>
      if n ≤ 2 ^ 31 - 1 then some (n : Int) else none

/-- Rust `str::parse::<usize>()`: optional `+` sign, digits, fits in
64 bits. -/
def parseUsize (l : List Nat) : Option Nat :=
  match l with
  | 43 :: rest =>
    (digitsToNat? rest).bind fun n => if n < 2 ^ 64 then some n else none
  | _ =>
    (digitsToNat? l).bind fun n => if n < 2 ^ 64 then some n else none

/-- Result of `ClientMessage::parse`: `ok m` for `Some(m)`, `invalid`
for `None`, and `panics` when the Rust code would panic (the two
`split.next().unwrap()` calls in the `OK ` branch are evaluated
eagerly, so a remainder with fewer than two tokens unwraps `None`). -/
inductive ParseResult where
  | ok (m : ClientMessage)
  | invalid
  | panics
deriving DecidableEq

/-- `ClientMessage::parse` from src/util.rs lines 54-81, branch by
branch.  The `OK ` branch mirrors the source exactly: the iterator is
`split(' ').skip(1)`; both `next().unwrap()` calls run before the
tuple is matched, so a single remainder token panics; if both tokens
parse as `i32` but further tokens remain (`split.count() > 0`), the
payload is kept as a `String`; otherwise `Ok(x, y)`. -/
def ClientMessage.parse (s : List Nat) : ParseResult :=
  if s = strB "RECHARGING" then .ok .Recharging
  else if s = strB "FULL POWER" then .ok .FullPower
  else if ¬ isAsciiL s then .invalid
  else if (strB "OK ").isPrefixOf s then
    match (splitChar 32 s).drop 1 with
    | t1 :: t2 :: restToks =>
      match parseI32 t1, parseI32 t2 with
      | some x, some y =>
        if restToks.length > 0 then .ok (.String s)
        else .ok (.Ok x y)
      | _, _ => .ok (.String s)
    | _ => .panics
  else
    match parseUsize s with
    | some n => .ok (.Number n)
    | none => .ok (.String s)

/-- One event delivered by a single `socket.read` of one byte in
`RobotController::receive` (src/robot.rs lines 73-90): either a byte
arrives, or the read fails with an I/O error, or the per-byte deadline
elapses. -/
inductive Ev where
  | byte (b : Nat)
  | ioErr
  | timeout
deriving DecidableEq

/-- Whether a continuation byte is in `0x80..=0xBF`. -/
def contB (b : Nat) : Bool := 128 ≤ b && b ≤ 191

/-- UTF-8 validity of a byte list, as decided by Rust
`core::str::from_utf8` (complete sequences only; a trailing
incomplete sequence or a stray continuation byte is invalid). -/
def validUtf8 : List Nat → Bool
  | [] => true
  | b :: rest =>
    if b ≤ 127 then validUtf8 rest
    else if 194 ≤ b && b ≤ 223 then
      match rest with
      | c1 :: r => contB c1 && validUtf8 r
      | [] => false
    else if b = 224 then
      match rest with
      | c1 :: c2 :: r => (160 ≤ c1 && c1 ≤ 191) && contB c2 && validUtf8 r
      | _ => false
    else if 225 ≤ b && b ≤ 236 then
      match rest with
      | c1 :: c2 :: r => contB c1 && contB c2 && validUtf8 r
      | _ => false
    else if b = 237 then
      match rest with
      | c1 :: c2 :: r => (128 ≤ c1 && c1 ≤ 159) && contB c2 && validUtf8 r
      | _ => false
    else if 238 ≤ b && b ≤ 239 then
      match rest with
      | c1 :: c2 :: r => contB c1 && contB c2 && validUtf8 r
      | _ => false
    else if b = 240 then
      match rest with
      | c1 :: c2 :: c3 :: r =>
        (144 ≤ c1 && c1 ≤ 191) && contB c2 && contB c3 && validUtf8 r
      | _ => false
    else if 241 ≤ b && b ≤ 243 then
      match rest with
      | c1 :: c2 :: c3 :: r => contB c1 && contB c2 && contB c3 && validUtf8 r
      | _ => false
    else if b = 244 then
      match rest with
      | c1 :: c2 :: c3 :: r =>
        (128 ≤ c1 && c1 ≤ 143) && contB c2 && contB c3 && validUtf8 r
      | _ => false
    else false

/-- Outcome of the frame-accumulation loop of
`RobotController::receive`.  `payload` carries the bytes before the
terminator and the remaining stream events; `panic` is the
`from_utf8(..).unwrap()` failure on an invalid-UTF-8 two-byte window;
`outOfInput` means the event list of the model was exhausted (the real
loop would keep blocking on the socket). -/
inductive FrameResult where
  | payload (p : List Nat) (rest : List Ev)
  | tooLong (rest : List Ev)
  | ioError (rest : List Ev)
  | timedOut (rest : List Ev)
  | panic
  | outOfInput
deriving DecidableEq

/-- The byte-accumulation loop of `RobotController::receive`
(src/robot.rs lines 70-101).  `bufRev` is the buffer contents so far,
most recent byte first, so the write index `i` of the source is
`bufRev.length`.  After storing a byte at index `i`, when `i ≥ 2` the
two-byte window `data[i-1..=i]` is decoded with
`from_utf8(..).unwrap()` (panicking if it is not valid UTF-8) and
compared against the terminator `"\x07\x08"`; on a match the loop
breaks with payload `data[0..i-1]`.  Otherwise `i` is incremented and
compared against `MAX_LENGTH`, yielding `TooLong` on equality. -/
def readFrameLoop (ml : Nat) (bufRev : List Nat) : List Ev → FrameResult
  | [] => .outOfInput
  | .ioErr :: rest => .ioError rest
  | .timeout :: rest => .timedOut rest
  | .byte b :: rest =>
    if 2 ≤ bufRev.length then
      match bufRev with
      | prev :: tail =>
        if validUtf8 [prev, b] then
          if prev = 7 && b = 8 then .payload tail.reverse rest
          else if bufRev.length + 1 = ml then .tooLong rest
          else readFrameLoop ml (b :: bufRev) rest
        else .panic
      | [] => .panic
    else if bufRev.length + 1 = ml then .tooLong rest
    else readFrameLoop ml (b :: bufRev) rest

/-- Result of `RobotController::receive`: a decoded message, or one of
the `MessageReceivedError` variants (src/util.rs lines 85-93), or a
panic, or model-input exhaustion. -/
inductive RecvResult where
  | msg (m : ClientMessage) (rest : List Ev)
  | invalid (rest : List Ev)
  | tooLong (rest : List Ev)
  | ioError (rest : List Ev)
  | timedOut (rest : List Ev)
  | panic
  | outOfInput
deriving DecidableEq

/-- `RobotController::receive` (src/robot.rs lines 64-105): run the
frame loop, then decode the payload with
`ClientMessage::parse(core::str::from_utf8(&data[0..i-1]).unwrap())`.
The payload `unwrap` panics when the payload is not valid UTF-8; a
`parse` result of `None` becomes the `Invalid` error. -/
def receive (ml : Nat) (input : List Ev) : RecvResult :=
  match readFrameLoop ml [] input with
  | .payload p rest =>
    if validUtf8 p then
      match ClientMessage.parse p with
      | .ok m => .msg m rest
      | .invalid => .invalid rest
      | .panics => .panic
    else .panic
  | .tooLong rest => .tooLong rest
  | .ioError rest => .ioError rest
  | .timedOut rest => .timedOut rest
  | .panic => .panic
  | .outOfInput => .outOfInput

/-- Result of `RobotController::wait_for_recharging`
(src/robot.rs lines 107-125): `ok` resumes with the remaining stream,
`fail` is `None` together with the server messages written on the way
out. -/
inductive WaitResult where
  | ok (rest : List Ev)
  | fail (sent : List ServerMessage)
  | panicked
  | outOfInput
deriving DecidableEq

/-- `RobotController::wait_for_recharging`: read one more frame with
`MAX_LENGTH = 12`; only `FullPower` is accepted.  Any other decoded
message answers `LogicError`; a timeout is silent; `TooLong`,
`Invalid` and `IOError` answer `SyntaxError` (they all fall under the
`Ok(Err(_))` arm of the source). -/
def wait_for_recharging (input : List Ev) : WaitResult :=
  match receive 12 input with
  | .msg .FullPower rest => .ok rest
  | .msg _ _ => .fail [.LogicError]
  | .timedOut _ => .fail []
  | .tooLong _ => .fail [.SyntaxError]
  | .invalid _ => .fail [.SyntaxError]
  | .ioError _ => .fail [.SyntaxError]
  | .panic => .panicked
  | .outOfInput => .outOfInput

/-- Result of `RobotController::get`: a message together with the
remaining stream and the server messages written so far, or
termination (`fail`, with the messages written), or a panic. -/
inductive GetResult where
  | msg (m : ClientMessage) (rest : List Ev) (sent : List ServerMessage)
  | fail (sent : List ServerMessage)
  | panicked (sent : List ServerMessage)
  | outOfInput
deriving DecidableEq

/-- The frame loop consumes at least one stream event before
returning a payload. -/
theorem readFrameLoop_payload_rest_lt :
    ∀ (input : List Ev) (ml : Nat) (bufRev p : List Nat) (rest : List Ev),
      readFrameLoop ml bufRev input = .payload p rest →
      rest.length < input.length := by
  intro input
  induction input with
  | nil => intro ml bufRev p rest h; simp [readFrameLoop] at h
  | cons e t ih =>
    intro ml bufRev p rest h
    cases e with
    | ioErr => simp [readFrameLoop] at h
    | timeout => simp [readFrameLoop] at h
    | byte b =>
      simp only [readFrameLoop] at h
      split at h
      · split at h
        · split at h
          · split at h
            · injection h with h1 h2; subst h2; simp
            · split at h
              · simp at h
              · have := ih ml _ p rest h; simp; omega
          · simp at h
        · simp at h
      · split at h
        · simp at h
        · have := ih ml _ p rest h; simp; omega

/-- `receive` consumes at least one stream event before returning a
decoded message. -/
theorem receive_msg_rest_lt (ml : Nat) (input : List Ev)
    (m : ClientMessage) (rest : List Ev)
    (h : receive ml input = .msg m rest) : rest.length < input.length := by
  unfold receive at h
  split at h
  · rename_i p r heq
    split at h
    · split at h
      · injection h with h1 h2
        exact h2 ▸ readFrameLoop_payload_rest_lt input ml [] p r heq
      · simp at h
      · simp at h
    · simp at h
  all_goals simp at h

/-- A successful recharge wait consumes at least one stream event. -/
theorem wait_for_recharging_ok_lt (input rest : List Ev)
    (h : wait_for_recharging input = .ok rest) :
    rest.length < input.length := by
  unfold wait_for_recharging at h
  split at h
  · rename_i r heq
    injection h with h1
    exact h1 ▸ receive_msg_rest_lt 12 input .FullPower r heq
  all_goals simp at h

/-- Fuel-indexed form of the recursive `RobotController::get`
(src/robot.rs lines 127-152).  The Rust function recurses after a
successful recharge interleave; each recursion strictly shortens the
stream, so `input.length + 1` units of fuel always suffice (see
`get`). -/
def getF (ml : Nat) : Nat → List Ev → GetResult
  | 0, _ => .outOfInput
  | fuel + 1, input =>
    match receive ml input with
    | .msg .Recharging rest =>
      match wait_for_recharging rest with
      | .ok rest2 => getF ml fuel rest2
      | .fail sent => .fail sent
      | .panicked => .panicked []
      | .outOfInput => .outOfInput
    | .msg .FullPower _ => .fail [.LogicError]
    | .msg m rest => .msg m rest []
    | .invalid _ => .fail [.SyntaxError]
    | .tooLong _ => .fail [.SyntaxError]
    | .ioError _ => .fail [.SyntaxError]
    | .timedOut _ => .fail []
    | .panic => .panicked []
    | .outOfInput => .outOfInput

/-- `getF` does not depend on the fuel once the fuel exceeds the
length of the input stream. -/
theorem getF_congr :
    ∀ (f1 : Nat) (f2 : Nat) (ml : Nat) (input : List Ev),
      input.length < f1 → input.length < f2 →
      getF ml f1 input = getF ml f2 input := by
  intro f1
  induction f1 with
  | zero => intro f2 ml input h1 h2; omega
  | succ f1 ih =>
    intro f2 ml input h1 h2
    cases f2 with
    | zero => omega
    | succ f2 =>
      simp only [getF]
      split
      · rename_i mrest hr
        split
        · rename_i r2 hw
          have hlt1 := receive_msg_rest_lt ml input .Recharging mrest hr
          have hlt2 := wait_for_recharging_ok_lt mrest r2 hw
          exact ih f2 ml r2 (by omega) (by omega)
        all_goals rfl
      all_goals rfl

/-- `RobotController::get`: the fuel-indexed loop with enough fuel for
the whole stream. -/
def get (ml : Nat) (input : List Ev) : GetResult :=
  getF ml (input.length + 1) input

/-- `name_char_sum` from src/robot.rs line 182: the bytes of the name
summed as a `u16` (wrapping). -/
def name_char_sum (name : List Nat) : Nat :=
  name.foldl (fun a b => (a + b) % 65536) 0

/-- `checksum` from src/robot.rs line 183:
`name_char_sum.wrapping_mul(1000)`. -/
def checksum (name : List Nat) : Nat := name_char_sum name * 1000 % 65536

/-- `server_checksum` from src/robot.rs line 184:
`checksum.wrapping_add(server_key)`. -/
def server_checksum (name : List Nat) (key_id : Nat) : Nat :=
  (checksum name + SERVER_KEYS.getD key_id 0) % 65536

/-- Terminal decision of the `log_in` handshake, given the already
decoded name, key id and client checksum. -/
inductive LoginOutcome where
  | ok
  | syntaxError
  | keyOutOfRange
  | loginFailed
deriving DecidableEq

/-- The decision logic of `RobotController::log_in`
(src/robot.rs lines 173-205) after the three frames are decoded:
`key_id > 4` is `KeyOutOfRangeError`; a client checksum not fitting in
`u16` (the failed `try_into`) is `SyntaxError`; then
`checksum != client_checksum.wrapping_sub(client_key)` is
`LoginFailed`, else `OK`. -/
def log_in (name : List Nat) (key_id : Nat) (client_checksum : Nat) :
    LoginOutcome :=
  if key_id > 4 then .keyOutOfRange
  else if 65536 ≤ client_checksum then .syntaxError
  else if checksum name ≠
      (client_checksum + 65536 - CLIENT_KEYS.getD key_id 0) % 65536 then
    .loginFailed
  else .ok

/-- `Position` from src/robot.rs lines 10-13. -/
inductive Position where
  | Unknown
  | Known (x y : Int)
deriving DecidableEq

/-- `Direction` from src/robot.rs lines 16-22. -/
inductive Direction where
  | Unknown
  | Up
  | Down
  | Left
  | Right
deriving DecidableEq

/-- `MoveResult` from src/robot.rs lines 25-28. -/
inductive MoveResult where
  | Ok
  | Rammed
deriving DecidableEq

/-- `Robot` from src/robot.rs lines 31-34. -/
structure Robot where
  position : Position
  direction : Direction
deriving DecidableEq

/-- Whether a position has been learned. -/
def Position.isKnown : Position → Bool
  | .Unknown => false
  | .Known _ _ => true

/-- Whether a direction has been inferred. -/
def Direction.isKnown : Direction → Bool
  | .Unknown => false
  | _ => true

/-- State update of `RobotController::move_forward`
(src/robot.rs lines 233-263) on a successful `Ok(new_x, new_y)` reply:
a ram is a zero delta from a known position; direction inference runs
only from a known position with unknown direction, where a delta that
is neither zero nor a unit vector hits `unreachable!()` (modelled as
`none`); the position is then set to `Known(new_x, new_y)`
unconditionally. -/
def move_forward (r : Robot) (nx ny : Int) : Option (Robot × MoveResult) :=
  match r.position with
  | .Unknown => some (⟨.Known nx ny, r.direction⟩, .Ok)
  | .Known x y =>
    match r.direction with
    | .Unknown =>
      if nx - x = 0 ∧ ny - y = 0 then
        some (⟨.Known nx ny, .Unknown⟩, .Rammed)
      else if nx - x = -1 ∧ ny - y = 0 then
        some (⟨.Known nx ny, .Left⟩, .Ok)
      else if nx - x = 1 ∧ ny - y = 0 then
        some (⟨.Known nx ny, .Right⟩, .Ok)
      else if nx - x = 0 ∧ ny - y = -1 then
        some (⟨.Known nx ny, .Down⟩, .Ok)
      else if nx - x = 0 ∧ ny - y = 1 then
        some (⟨.Known nx ny, .Up⟩, .Ok)
      else none
    | d =>
      some (⟨.Known nx ny, d⟩,
        if nx - x = 0 ∧ ny - y = 0 then .Rammed else .Ok)

/-- The left-turn cycle of `RobotController::turn_left`
(src/robot.rs lines 274-280). -/
def rotateLeft : Direction → Direction
  | .Unknown => .Unknown
  | .Up => .Left
  | .Down => .Right
  | .Left => .Down
  | .Right => .Up

/-- The right-turn cycle of `RobotController::turn_right`
(src/robot.rs lines 293-299). -/
def rotateRight : Direction → Direction
  | .Unknown => .Unknown
  | .Up => .Right
  | .Down => .Left
  | .Left => .Up
  | .Right => .Down

/-- State update of `RobotController::turn_left` on a successful
`Ok(x, y)` reply: the acknowledged coordinates are stored and the
direction rotates left. -/
def turn_left (r : Robot) (x y : Int) : Robot :=
  ⟨.Known x y, rotateLeft r.direction⟩

/-- State update of `RobotController::turn_right`. -/
def turn_right (r : Robot) (x y : Int) : Robot :=
  ⟨.Known x y, rotateRight r.direction⟩

/-- One of the three session operations that process an `Ok(x, y)`
reply. -/
inductive Op where
  | move
  | left
  | right
deriving DecidableEq

/-- Session-state effect of one operation given the coordinates of its
successful reply (`none` is the `unreachable!()` panic of direction
inference). -/
def step (r : Robot) (op : Op) (xy : Int × Int) : Option Robot :=
  match op with
  | .move => (move_forward r xy.1 xy.2).map (·.1)
  | .left => some (turn_left r xy.1 xy.2)
  | .right => some (turn_right r xy.1 xy.2)

/-- Run a list of operations with their replies. -/
def runOps (r : Robot) : List (Op × Int × Int) → Option Robot
  | [] => some r
  | (op, xy) :: t => (step r op xy).bind (fun r2 => runOps r2 t)

/-- The robot state at session start (src/robot.rs lines 46-49). -/
def robotInit : Robot := ⟨.Unknown, .Unknown⟩

/-- `RobotController::acquire_initial_state`
(src/robot.rs lines 335-342), parameterised by the coordinates carried
by the successive replies: move; move again; if the second move
rammed, turn left (reply `rt`) and move a third time (reply `r3`).
The results of the first and third moves are discarded by the
source. -/
def acquire_initial_state (r : Robot) (r1 r2 rt r3 : Int × Int) :
    Option Robot :=
  (move_forward r r1.1 r1.2).bind fun a =>
  (move_forward a.1 r2.1 r2.2).bind fun b =>
  match b.2 with
  | .Ok => some b.1
  | .Rammed =>
    (move_forward (turn_left b.1 rt.1 rt.2) r3.1 r3.2).map (·.1)

/-- An obstacle configuration: the set of blocked cells. -/
structure World where
  obstacles : List (Int × Int)
deriving DecidableEq

/-- Whether a cell is free. -/
def World.free (w : World) (p : Int × Int) : Bool :=
  ¬ p ∈ w.obstacles

/-- Unit vector of a heading (`Up` is +Y, `Down` -Y, `Right` +X,
`Left` -X). -/
def Direction.delta : Direction → Int × Int
  | .Up => (0, 1)
  | .Down => (0, -1)
  | .Left => (-1, 0)
  | .Right => (1, 0)
  | .Unknown => (0, 0)

/-- Effect of one `Move` command on a conformant robot: step into the
adjacent cell in heading `d` if it is free, otherwise stay put (a
ram).  Returns the new position and whether the move rammed. -/
def moveAttempt (w : World) (p : Int × Int) (d : Direction) :
    (Int × Int) × Bool :=
  let t := (p.1 + d.delta.1, p.2 + d.delta.2)
  if w.free t then (t, false) else (p, true)

/-- One iteration of the navigation loop of `RobotController::run`
(src/robot.rs lines 350-396), for a position off the origin, against a
conformant robot.  Turn replies repeat the current coordinates, so
`rotate` only changes the heading and the position evolves through the
`Move` commands alone; the returned number counts the `Move` commands
issued (1, or 3 when the obstacle detour runs; the detour's own moves
may ram, in which case the position simply does not change). -/
def navIter (w : World) (p : Int × Int) : (Int × Int) × Nat :=
  if p.1 ≠ 0 then
    let primary : Direction := if p.1 < 0 then .Right else .Left
    let avoid : Direction := if p.2 < 0 then .Up else .Down
    let m1 := moveAttempt w p primary
    if m1.2 then
      let m2 := moveAttempt w m1.1 avoid
      let m3 := moveAttempt w m2.1 primary
      (m3.1, 3)
    else (m1.1, 1)
  else
    let primary : Direction := if p.2 < 0 then .Up else .Down
    let avoid : Direction := if p.1 < 0 then .Right else .Left
    let m1 := moveAttempt w p primary
    if m1.2 then
      let m2 := moveAttempt w m1.1 avoid
      let m3 := moveAttempt w m2.1 primary
      (m3.1, 3)
    else (m1.1, 1)

/-- Fuel-indexed run of the navigation loop: `some n` when the loop
reaches the origin within the given number of iterations having
issued `n` `Move` commands, `none` when the fuel runs out first. -/
def navRun (w : World) : Nat → Int × Int → Option Nat
  | 0, p => if p = (0, 0) then some 0 else none
  | fuel + 1, p =>
    if p = (0, 0) then some 0
    else
      (navRun w fuel (navIter w p).1).map (· + (navIter w p).2)

/-- The origin is reached from `p` by the fixed detour policy: the
small-step reachability relation of the navigation loop. -/
inductive NavReaches (w : World) : Int × Int → Prop
  | done : NavReaches w (0, 0)
  | step {p : Int × Int} : p ≠ (0, 0) →
      NavReaches w (navIter w p).1 → NavReaches w p

/-- A terminating fuel-indexed run witnesses policy-reachability. -/
theorem navReaches_of_navRun (w : World) :
    ∀ (fuel : Nat) (p : Int × Int) (n : Nat),
      navRun w fuel p = some n → NavReaches w p := by
  intro fuel
  induction fuel with
  | zero =>
    intro p n h
    unfold navRun at h
    split at h
    · exact (by assumption : p = (0, 0)) ▸ NavReaches.done
    · simp at h
  | succ fuel ih =>
    intro p n h
    unfold navRun at h
    split at h
    · exact (by assumption : p = (0, 0)) ▸ NavReaches.done
    · rename_i hne
      match hm : navRun w fuel (navIter w p).1 with
      | some n2 => exact NavReaches.step hne (ih _ n2 hm)
      | none => rw [hm] at h; simp at h

/-- Definitional one-step unfolding of `validUtf8` on a two-byte
list. -/
theorem validUtf8_pair_unfold (a b : Nat) :
    validUtf8 [a, b] =
      (if a ≤ 127 then validUtf8 [b]
       else if 194 ≤ a && a ≤ 223 then contB b && validUtf8 []
       else if a = 224 then false
       else if 225 ≤ a && a ≤ 236 then false
       else if a = 237 then false
       else if 238 ≤ a && a ≤ 239 then false
       else if a = 240 then false
       else if 241 ≤ a && a ≤ 243 then false
       else if a = 244 then false
       else false) := rfl

/-- Definitional one-step unfolding of `validUtf8` on a one-byte
list. -/
theorem validUtf8_single_unfold (b : Nat) :
    validUtf8 [b] =
      (if b ≤ 127 then validUtf8 []
       else if 194 ≤ b && b ≤ 223 then false
       else if b = 224 then false
       else if 225 ≤ b && b ≤ 236 then false
       else if b = 237 then false
       else if 238 ≤ b && b ≤ 239 then false
       else if b = 240 then false
       else if 241 ≤ b && b ≤ 243 then false
       else if b = 244 then false
       else false) := rfl

/-- Two ASCII bytes always form a valid UTF-8 window. -/
theorem validUtf8_pair_ascii (a b : Nat) (ha : a < 128) (hb : b < 128) :
    validUtf8 [a, b] = true := by
  rw [validUtf8_pair_unfold, if_pos (show a ≤ 127 by omega),
    validUtf8_single_unfold, if_pos (show b ≤ 127 by omega)]
  rfl

/-- No two adjacent bytes of `p :: l` form the frame terminator
`(7, 8)`. -/
def chainNoSep : Nat → List Nat → Bool
  | _, [] => true
  | p, b :: t => !(p == 7 && b == 8) && chainNoSep b t

/-- Appending a byte other than `8` preserves terminator-freedom. -/
theorem chainNoSep_append_not8 :
    ∀ (l : List Nat) (p b2 : Nat), chainNoSep p l = true → b2 ≠ 8 →
      chainNoSep p (l ++ [b2]) = true := by
  intro l
  induction l with
  | nil =>
    intro p b2 h hb
    simp [chainNoSep, hb]
  | cons a t ih =>
    intro p b2 h hb
    simp only [chainNoSep, Bool.and_eq_true] at h
    simp only [List.cons_append, chainNoSep, Bool.and_eq_true]
    exact ⟨h.1, ih a b2 h.2 hb⟩

/-- Feeding a run of ASCII, terminator-free bytes to the frame loop
neither breaks nor panics: it either trips the `MAX_LENGTH` check on
the last byte (when the byte count reaches the cap exactly) or ends
with all of them accumulated in the buffer. -/
theorem rf_advance :
    ∀ (bs bufRev : List Nat) (rest : List Ev) (ml : Nat),
      (∀ b ∈ bs, b < 128) →
      bufRev.headD 0 < 128 →
      chainNoSep (bufRev.headD 0) bs = true →
      bufRev.length + bs.length ≤ ml →
      readFrameLoop ml bufRev (bs.map Ev.byte ++ rest) =
        if bs ≠ [] ∧ bufRev.length + bs.length = ml then .tooLong rest
        else readFrameLoop ml (bs.reverse ++ bufRev) rest := by
  intro bs
  induction bs with
  | nil => intro bufRev rest ml _ _ _ _; simp
  | cons b t ih =>
    intro bufRev rest ml hascii hhead hchain hlen
    simp only [chainNoSep, Bool.and_eq_true, Bool.not_eq_true',
      Bool.and_eq_false_iff, beq_eq_false_iff_ne] at hchain
    have hb : b < 128 := hascii b (by simp)
    have hih := ih (b :: bufRev) rest ml
      (fun x hx => hascii x (by simp [hx]))
      (by simpa using hb) (by simpa using hchain.2)
    simp only [List.map_cons, List.cons_append]
    have hstep :
        readFrameLoop ml bufRev (Ev.byte b :: (t.map Ev.byte ++ rest)) =
          if bufRev.length + 1 = ml then .tooLong (t.map Ev.byte ++ rest)
          else readFrameLoop ml (b :: bufRev) (t.map Ev.byte ++ rest) := by
      by_cases h2 : 2 ≤ bufRev.length
      · obtain ⟨prev, tail, rfl⟩ : ∃ p0 t0, bufRev = p0 :: t0 := by
          cases bufRev with
          | nil => simp at h2
          | cons p0 t0 => exact ⟨p0, t0, rfl⟩
        have hprev : prev < 128 := by simpa using hhead
        simp only [readFrameLoop]
        rw [if_pos h2, if_pos (validUtf8_pair_ascii prev b hprev hb)]
        have hsep : ¬ (prev = 7 && b = 8) = true := by
          rcases hchain.1 with hc | hc <;> simp at hc ⊢ <;> omega
        rw [if_neg hsep]
      · simp only [readFrameLoop]
        rw [if_neg h2]
    rw [hstep]
    by_cases hml : bufRev.length + 1 = ml
    · rw [if_pos hml]
      have ht : t = [] := by
        by_contra hne
        have : 0 < t.length := List.length_pos.mpr hne
        simp only [List.length_cons] at hlen
        omega
      subst ht
      simp [hml]
    · rw [if_neg hml]
      rw [hih (by simp at hlen ⊢; omega)]
      by_cases htn : t = []
      · subst htn
        simp only [List.length_cons, List.length_nil]
        rw [if_neg (by simp), if_neg (by simp at hml ⊢; omega)]
        simp
      · have hcond : ((b :: t ≠ []) ∧ bufRev.length + (b :: t).length = ml) ↔
            ((t ≠ []) ∧ (b :: bufRev).length + t.length = ml) := by
          simp only [List.length_cons]
          constructor
          · intro hh; exact ⟨htn, by omega⟩
          · intro hh; exact ⟨by simp, by omega⟩
        by_cases hcl : (t ≠ []) ∧ (b :: bufRev).length + t.length = ml
        · rw [if_pos hcl, if_pos (hcond.mpr hcl)]
        · rw [if_neg hcl, if_neg (fun hh => hcl (hcond.mp hh))]
          simp [List.append_assoc]

/-- Every payload the frame loop ever returns is nonempty: the break
condition requires the write index to be at least 2, and the payload
drops only the terminator's first byte. -/
theorem readFrameLoop_payload_len :
    ∀ (input : List Ev) (ml : Nat) (bufRev p : List Nat) (rest : List Ev),
      readFrameLoop ml bufRev input = .payload p rest → 1 ≤ p.length := by
  intro input
  induction input with
  | nil => intro ml bufRev p rest h; simp [readFrameLoop] at h
  | cons e t ih =>
    intro ml bufRev p rest h
    cases e with
    | ioErr => simp [readFrameLoop] at h
    | timeout => simp [readFrameLoop] at h
    | byte b =>
      simp only [readFrameLoop] at h
      split at h
      · rename_i h2
        split at h
        · rename_i prev tail
          split at h
          · split at h
            · injection h with h1 h2x
              subst h1
              simp only [List.length_reverse]
              simp at h2
              omega
            · split at h
              · simp at h
              · exact ih ml _ p rest h
          · simp at h
        · simp at h
      · split at h
        · simp at h
        · exact ih ml _ p rest h

/-- One step of the frame loop on a byte when at least two bytes are
already buffered and the two-byte window is valid UTF-8. -/
theorem rf_step_byte (ml : Nat) (prev : Nat) (tail : List Nat) (b : Nat)
    (rest : List Ev) (h2 : 2 ≤ (prev :: tail).length)
    (hv : validUtf8 [prev, b] = true) :
    readFrameLoop ml (prev :: tail) (Ev.byte b :: rest) =
      if prev = 7 && b = 8 then .payload tail.reverse rest
      else if (prev :: tail).length + 1 = ml then .tooLong rest
      else readFrameLoop ml (b :: prev :: tail) rest := by
  simp only [readFrameLoop]
  rw [if_pos h2, if_pos hv]

/-- Unfolding equation of `get`: it satisfies the recursion of the
Rust `RobotController::get` with a full-fuel recursive call. -/
theorem get_unfold (ml : Nat) (input : List Ev) :
    get ml input =
      match receive ml input with
      | .msg .Recharging rest =>
        (match wait_for_recharging rest with
         | .ok rest2 => get ml rest2
         | .fail sent => .fail sent
         | .panicked => .panicked []
         | .outOfInput => .outOfInput)
      | .msg .FullPower _ => .fail [.LogicError]
      | .msg m rest => .msg m rest []
      | .invalid _ => .fail [.SyntaxError]
      | .tooLong _ => .fail [.SyntaxError]
      | .ioError _ => .fail [.SyntaxError]
      | .timedOut _ => .fail []
      | .panic => .panicked []
      | .outOfInput => .outOfInput := by
  show getF ml (input.length + 1) input = _
  simp only [getF]
  split
  · rename_i rest hr
    split
    · rename_i rest2 hw
      have h1 := receive_msg_rest_lt ml input .Recharging rest hr
      have h2 := wait_for_recharging_ok_lt rest rest2 hw
      show getF ml input.length rest2 = getF ml (rest2.length + 1) rest2
      exact getF_congr input.length (rest2.length + 1) ml rest2
        (by omega) (by omega)
    all_goals rfl
  all_goals rfl

/-- Claim C1 (code_bug evidence): for an ASCII payload beginning with
`OK ` whose remainder splits into fewer than two tokens, the spec says
`ClientMessage::parse` returns `String(payload)`, but the source's
second `split.next().unwrap()` (src/util.rs line 66) unwraps `None`
and panics; with three remainder tokens the documented `String`
fallback does fire. -/
theorem C1_ok_short_split_panics :
    ClientMessage.parse (strB "OK 1") = .panics ∧
    ClientMessage.parse (strB "OK ") = .panics ∧
    ClientMessage.parse (strB "OK 1 2 3") = .ok (.String (strB "OK 1 2 3")) ∧
    ClientMessage.parse (strB "OK x y") = .ok (.String (strB "OK x y")) := by
  decide

/-- Claim C2 (code_bug evidence): for frames whose payload is not pure
ASCII the spec says the decoder fails with `Invalid` and the server
answers `SyntaxError`, but `receive` panics instead: the two-byte
terminator-window `from_utf8(..).unwrap()` (src/robot.rs line 92)
panics on `0xFF` after `a`, and also on the valid UTF-8 payload `aé`
(whose continuation byte heads a later window); a leading non-ASCII
byte survives the windows but trips the payload
`from_utf8(..).unwrap()` (src/robot.rs line 103). -/
theorem C2_nonascii_payload_panics :
    receive 20 [.byte 97, .byte 255, .byte 7, .byte 8] = .panic ∧
    receive 20 [.byte 97, .byte 195, .byte 169, .byte 7, .byte 8] = .panic ∧
    receive 20 [.byte 255, .byte 97, .byte 7, .byte 8] = .panic := by
  decide

/-- Claim C3 (counterexample): with the Name cap `MAX_LENGTH = 20`, a
frame of 19 ASCII body bytes followed by the terminator is *not*
accepted: the length check fires while reading the terminator's first
byte, yielding `TooLong`, and the server answers `SyntaxError`. -/
theorem C3_cap_minus_one_rejected :
    readFrameLoop 20 [] ((List.replicate 19 97 ++ [7, 8]).map Ev.byte)
      = .tooLong [Ev.byte 8] ∧
    get 20 ((List.replicate 19 97 ++ [7, 8]).map Ev.byte)
      = .fail [.SyntaxError] := by
  decide

/-- Claim C3 (amended): for every phase cap `MaxLen ≥ 4`, a frame
whose ASCII, terminator-free body has `MaxLen − 2` bytes followed by
the 2-byte terminator is accepted with exactly that body as payload;
a body of `MaxLen − 1` bytes followed by the terminator, or `MaxLen`
body bytes with no terminator yet, yield `TooLong`; and on `TooLong`
the server emits `SyntaxError` and terminates. -/
theorem C3_phase_cap (ml : Nat) (hml : 4 ≤ ml) :
    (∀ (body : List Nat) (rest : List Ev),
      body.length + 2 = ml → (∀ b ∈ body, b < 128) →
      chainNoSep 0 body = true →
      readFrameLoop ml [] (body.map Ev.byte ++ Ev.byte 7 :: Ev.byte 8 :: rest)
        = .payload body rest) ∧
    (∀ (body : List Nat) (rest : List Ev),
      body.length + 1 = ml → (∀ b ∈ body, b < 128) →
      chainNoSep 0 body = true →
      readFrameLoop ml [] (body.map Ev.byte ++ Ev.byte 7 :: Ev.byte 8 :: rest)
        = .tooLong (Ev.byte 8 :: rest)) ∧
    (∀ (body : List Nat) (rest : List Ev),
      body.length = ml → (∀ b ∈ body, b < 128) →
      chainNoSep 0 body = true →
      readFrameLoop ml [] (body.map Ev.byte ++ rest) = .tooLong rest) ∧
    (∀ (input r2 : List Ev), readFrameLoop ml [] input = .tooLong r2 →
      get ml input = .fail [.SyntaxError]) := by
  refine ⟨?_, ?_, ?_, ?_⟩
  · intro body rest hlen hascii hchain
    have h := rf_advance body [] (Ev.byte 7 :: Ev.byte 8 :: rest) ml hascii
      (by simp) (by simpa using hchain) (by simp; omega)
    rw [if_neg (by rintro ⟨-, hc⟩; simp at hc; omega)] at h
    rw [h, List.append_nil]
    obtain ⟨lb, tl, hrev⟩ : ∃ x t, body.reverse = x :: t := by
      cases hb : body.reverse with
      | nil =>
        exfalso
        have : body.length = 0 := by simpa using congrArg List.length hb
        omega
      | cons x t => exact ⟨x, t, rfl⟩
    have hlb : lb < 128 := by
      have : lb ∈ body.reverse := by rw [hrev]; simp
      exact hascii lb (List.mem_reverse.1 this)
    have hlen2 : (lb :: tl).length + 2 = ml := by
      rw [← hrev, List.length_reverse]; omega
    rw [hrev]
    rw [rf_step_byte ml lb tl 7 _ (by simp at hlen2 ⊢; omega)
      (validUtf8_pair_ascii lb 7 hlb (by omega))]
    rw [if_neg (by simp)]
    rw [if_neg (by omega)]
    rw [rf_step_byte ml 7 (lb :: tl) 8 rest (by simp)
      (validUtf8_pair_ascii 7 8 (by omega) (by omega))]
    rw [if_pos (by simp)]
    rw [← hrev, List.reverse_reverse]
  · intro body rest hlen hascii hchain
    have hmap : body.map Ev.byte ++ Ev.byte 7 :: Ev.byte 8 :: rest
        = (body ++ [7]).map Ev.byte ++ (Ev.byte 8 :: rest) := by simp
    rw [hmap]
    have hA : ∀ x ∈ body ++ [7], x < 128 := by
      intro x hx
      rcases List.mem_append.1 hx with hx | hx
      · exact hascii x hx
      · simp at hx
        omega
    have hC : chainNoSep (([] : List Nat).headD 0) (body ++ [7]) = true := by
      simpa using chainNoSep_append_not8 body 0 7 (by simpa using hchain)
        (by omega)
    have hD : ([] : List Nat).length + (body ++ [7]).length ≤ ml := by
      simp
      omega
    have h := rf_advance (body ++ [7]) [] (Ev.byte 8 :: rest) ml hA (by simp)
      hC hD
    have hcond : (body ++ [7] ≠ []) ∧
        ([] : List Nat).length + (body ++ [7]).length = ml := by
      constructor
      · simp
      · simp
        omega
    rw [h, if_pos hcond]
  · intro body rest hlen hascii hchain
    have h := rf_advance body [] rest ml hascii (by simp)
      (by simpa using hchain) (by simp; omega)
    have hcond : (body ≠ []) ∧ ([] : List Nat).length + body.length = ml := by
      constructor
      · intro h0
        rw [h0] at hlen
        simp at hlen
        omega
      · simp
        omega
    rw [h, if_pos hcond]
  · intro input r2 h
    have hrecv : receive ml input = .tooLong r2 := by
      unfold receive
      rw [h]
    rw [get_unfold, hrecv]

/-- Witness for `C3_phase_cap` at the Name phase: cap 20, an 18-byte
body plus terminator is accepted, 20 bytes without terminator are
`TooLong`, and that `TooLong` is answered with `SyntaxError`. -/
theorem C3_phase_cap_witness :
    readFrameLoop 20 []
        ((List.replicate 18 97).map Ev.byte ++ Ev.byte 7 :: Ev.byte 8 :: [])
      = .payload (List.replicate 18 97) [] ∧
    readFrameLoop 20 [] ((List.replicate 20 97).map Ev.byte ++ [])
      = .tooLong [] ∧
    get 20 ((List.replicate 20 97).map Ev.byte ++ []) = .fail [.SyntaxError] := by
  have h := C3_phase_cap 20 (by omega)
  have h3 := h.2.2.1 (List.replicate 20 97) [] (by decide) (by decide) (by decide)
  exact ⟨h.1 (List.replicate 18 97) [] (by decide) (by decide) (by decide),
    h3, h.2.2.2 _ [] h3⟩

/-- Claim C4 (amended): the handshake arithmetic is as the claim's
formula states — `hash = ((Σ bytes) * 1000) mod 2^16`, confirmation
`(hash + SERVER_KEYS[id]) mod 2^16`, a client checksum `≥ 2^16` gets
`SyntaxError`, and a `c < 2^16` is accepted iff
`(c − CLIENT_KEYS[id]) mod 2^16 = hash`, i.e. iff
`c = (hash + CLIENT_KEYS[id]) mod 2^16` — but the claim's concrete
numbers are wrong: for name `Mnau` and id 2 the hash is 7784, the
confirmation 26573, and the unique accepted `c` is 21387 (see the
witness), with `c = 8389` producing `LoginFailed`. -/
theorem C4_handshake_arithmetic (name : List Nat) (key_id c : Nat)
    (hid : key_id < 5) :
    (log_in name key_id c = .ok ↔
      c < 65536 ∧ c = (checksum name + CLIENT_KEYS.getD key_id 0) % 65536) ∧
    (65536 ≤ c → log_in name key_id c = .syntaxError) ∧
    (c < 65536 → c ≠ (checksum name + CLIENT_KEYS.getD key_id 0) % 65536 →
      log_in name key_id c = .loginFailed) ∧
    server_checksum name key_id =
      (checksum name + SERVER_KEYS.getD key_id 0) % 65536 := by
  have hk : CLIENT_KEYS.getD key_id 0 < 65536 := by
    interval_cases key_id <;> decide
  have hcs : checksum name < 65536 := Nat.mod_lt _ (by norm_num)
  unfold log_in
  rw [if_neg (show ¬ key_id > 4 by omega)]
  refine ⟨?_, ?_, ?_, rfl⟩
  · constructor
    · intro h
      by_cases hc : 65536 ≤ c
      · rw [if_pos hc] at h
        exact absurd h (by decide)
      · rw [if_neg hc] at h
        by_cases hne : checksum name ≠
            (c + 65536 - CLIENT_KEYS.getD key_id 0) % 65536
        · rw [if_pos hne] at h
          exact absurd h (by decide)
        · push_neg at hne
          exact ⟨by omega, by omega⟩
    · rintro ⟨hc, hceq⟩
      rw [if_neg (by omega), if_neg (by push_neg; omega)]
  · intro hc
    rw [if_pos hc]
  · intro hc hne
    rw [if_neg (by omega), if_pos (by omega)]

/-- Witness for `C4_handshake_arithmetic` on the claim's own scenario
(name `Mnau`, key id 2) with the corrected numbers. -/
theorem C4_handshake_arithmetic_witness :
    log_in (strB "Mnau") 2 21387 = .ok ∧
    log_in (strB "Mnau") 2 8389 = .loginFailed ∧
    log_in (strB "Mnau") 2 70000 = .syntaxError ∧
    server_checksum (strB "Mnau") 2 = 26573 := by
  have h1 := C4_handshake_arithmetic (strB "Mnau") 2 21387 (by omega)
  have h2 := C4_handshake_arithmetic (strB "Mnau") 2 8389 (by omega)
  have h3 := C4_handshake_arithmetic (strB "Mnau") 2 70000 (by omega)
  exact ⟨h1.1.mpr (by decide), h2.2.2.1 (by decide) (by decide),
    h3.2.1 (by decide), by decide⟩

/-- Claim C4 (counterexample): the claim's concrete numbers fail on
the code — for name `Mnau` and id 2 the confirmation is not 43253,
and `c = 38067` is rejected with `LoginFailed`, not accepted. -/
theorem C4_spec_numbers_wrong :
    server_checksum (strB "Mnau") 2 ≠ 43253 ∧
    log_in (strB "Mnau") 2 38067 = .loginFailed := by
  decide

/-- Claim C5 (amended): an I/O error during a read is answered with
`SyntaxError` before terminating, exactly like `TooLong` and
`Invalid` — it is the `_` arm of `get`'s error match
(src/robot.rs lines 145-149) — and only a timeout terminates
silently. -/
theorem C5_io_error_answered (ml : Nat) (rest : List Ev) :
    get ml (Ev.ioErr :: rest) = .fail [.SyntaxError] ∧
    get ml (Ev.timeout :: rest) = .fail [] := by
  constructor <;> rfl

/-- Claim C5 (counterexample): on an immediate I/O error the session
emits `SyntaxError` — a message — contradicting the claim's "emits no
message at all on that exit path". -/
theorem C5_io_error_not_silent :
    get 12 [Ev.ioErr] = .fail [.SyntaxError] ∧
    GetResult.fail [ServerMessage.SyntaxError] ≠ GetResult.fail [] := by
  decide

/-- Claim C6 (confirmed): whenever a decoded inbound message is
`Recharging`, the driver reads the next frame (cap 12) and requires
exactly `FullPower`: any other decoded message in the window yields
`LogicError` and termination; after `FullPower` the driver resumes
reading the originally expected reply with the original cap; and a
`FullPower` decoded outside a recharge window yields `LogicError` and
termination.  (The 5-second wall-clock deadline itself is a real-time
property outside this event-level model.) -/
theorem C6_recharge_window (ml : Nat) (input rest : List Ev)
    (h : receive ml input = .msg .Recharging rest) :
    (∀ (m : ClientMessage) (r2 : List Ev),
      receive 12 rest = .msg m r2 → m ≠ .FullPower →
      get ml input = .fail [.LogicError]) ∧
    (∀ r2 : List Ev,
      receive 12 rest = .msg .FullPower r2 → get ml input = get ml r2) ∧
    (∀ (input2 r2 : List Ev),
      receive ml input2 = .msg .FullPower r2 →
      get ml input2 = .fail [.LogicError]) := by
  refine ⟨?_, ?_, ?_⟩
  · intro m r2 hm hne
    have hw : wait_for_recharging rest = .fail [.LogicError] := by
      unfold wait_for_recharging
      rw [hm]
      cases m with
      | FullPower => exact absurd rfl hne
      | String s => rfl
      | Number n => rfl
      | Ok x y => rfl
      | Recharging => rfl
    simp only [get_unfold ml input, h, hw]
  · intro r2 hm
    have hw : wait_for_recharging rest = .ok r2 := by
      unfold wait_for_recharging
      rw [hm]
    simp only [get_unfold ml input, h, hw]
  · intro input2 r2 hm
    simp only [get_unfold ml input2, hm]

/-- Witness for `C6_recharge_window`: a `RECHARGING` frame followed by
`FULL POWER` resumes transparently, and a bare `FULL POWER` frame is
a `LogicError`. -/
theorem C6_recharge_window_witness :
    get 12 ((strB "RECHARGING" ++ [7, 8]).map Ev.byte ++
        ((strB "FULL POWER" ++ [7, 8]).map Ev.byte ++
          (strB "1" ++ [7, 8]).map Ev.byte)) =
      get 12 ((strB "1" ++ [7, 8]).map Ev.byte) ∧
    get 12 ((strB "FULL POWER" ++ [7, 8]).map Ev.byte)
      = .fail [.LogicError] := by
  have h := C6_recharge_window 12
    ((strB "RECHARGING" ++ [7, 8]).map Ev.byte ++
      ((strB "FULL POWER" ++ [7, 8]).map Ev.byte ++
        (strB "1" ++ [7, 8]).map Ev.byte))
    ((strB "FULL POWER" ++ [7, 8]).map Ev.byte ++
      (strB "1" ++ [7, 8]).map Ev.byte)
    (by decide)
  exact ⟨h.2.1 ((strB "1" ++ [7, 8]).map Ev.byte) (by decide),
    h.2.2 ((strB "FULL POWER" ++ [7, 8]).map Ev.byte) [] (by decide)⟩

/-- Claim C7 (counterexample): a reply sequence in which the second
move rams and the third move (after the forced left turn) again
reports identical coordinates makes `acquire_initial_state` succeed
with `direction` still `Unknown` — so the claim that the direction is
`Known` for *every* successful sequence is false, and the navigation
loop's `rotate` would hit its fatal `unreachable!()` branch from any
off-origin position. -/
theorem C7_third_move_ram_leaves_unknown :
    acquire_initial_state robotInit (5, 5) (5, 5) (5, 5) (5, 5)
      = some ⟨.Known 5 5, .Unknown⟩ ∧
    Direction.isKnown .Unknown = false := by
  decide

/-- Claim C7 (amended): for every reply sequence under which
`acquire_initial_state` succeeds and in which, whenever the second
move rams, the third move's reply differs from the coordinates set by
the turn reply, the session's direction is `Known` when the
navigation loop starts. -/
theorem C7_initial_direction (x1 y1 x2 y2 xt yt x3 y3 : Int) (r2 : Robot)
    (h : acquire_initial_state robotInit (x1, y1) (x2, y2) (xt, yt) (x3, y3)
      = some r2)
    (hside : ¬(x2 = x1 ∧ y2 = y1) ∨ ¬(x3 = xt ∧ y3 = yt)) :
    r2.direction.isKnown = true := by
  have h' : (move_forward ⟨.Known x1 y1, .Unknown⟩ x2 y2).bind
      (fun b =>
        match b.2 with
        | MoveResult.Ok => some b.1
        | MoveResult.Rammed =>
          (move_forward (turn_left b.1 xt yt) x3 y3).map (fun x => x.1))
      = some r2 := h
  have e2 : move_forward ⟨.Known x1 y1, .Unknown⟩ x2 y2
      = (if x2 - x1 = 0 ∧ y2 - y1 = 0 then
          some (⟨.Known x2 y2, .Unknown⟩, .Rammed)
        else if x2 - x1 = -1 ∧ y2 - y1 = 0 then
          some (⟨.Known x2 y2, .Left⟩, .Ok)
        else if x2 - x1 = 1 ∧ y2 - y1 = 0 then
          some (⟨.Known x2 y2, .Right⟩, .Ok)
        else if x2 - x1 = 0 ∧ y2 - y1 = -1 then
          some (⟨.Known x2 y2, .Down⟩, .Ok)
        else if x2 - x1 = 0 ∧ y2 - y1 = 1 then
          some (⟨.Known x2 y2, .Up⟩, .Ok)
        else none) := rfl
  rw [e2] at h'
  by_cases h21 : x2 - x1 = 0 ∧ y2 - y1 = 0
  · rw [if_pos h21] at h'
    have h'' : (move_forward ⟨.Known xt yt, .Unknown⟩ x3 y3).map
        (fun x => x.1) = some r2 := h'
    have e3 : move_forward ⟨.Known xt yt, .Unknown⟩ x3 y3
        = (if x3 - xt = 0 ∧ y3 - yt = 0 then
            some (⟨.Known x3 y3, .Unknown⟩, .Rammed)
          else if x3 - xt = -1 ∧ y3 - yt = 0 then
            some (⟨.Known x3 y3, .Left⟩, .Ok)
          else if x3 - xt = 1 ∧ y3 - yt = 0 then
            some (⟨.Known x3 y3, .Right⟩, .Ok)
          else if x3 - xt = 0 ∧ y3 - yt = -1 then
            some (⟨.Known x3 y3, .Down⟩, .Ok)
          else if x3 - xt = 0 ∧ y3 - yt = 1 then
            some (⟨.Known x3 y3, .Up⟩, .Ok)
          else none) := rfl
    rw [e3] at h''
    have h3 : ¬(x3 - xt = 0 ∧ y3 - yt = 0) := by
      rcases hside with hs | hs
      · exact absurd ⟨by omega, by omega⟩ hs
      · intro hc
        exact hs ⟨by omega, by omega⟩
    rw [if_neg h3] at h''
    by_cases c1 : x3 - xt = -1 ∧ y3 - yt = 0
    · rw [if_pos c1] at h''
      have hfin : some (⟨.Known x3 y3, .Left⟩ : Robot) = some r2 := h''
      injection hfin with h1
      rw [← h1]
      rfl
    · rw [if_neg c1] at h''
      by_cases c2 : x3 - xt = 1 ∧ y3 - yt = 0
      · rw [if_pos c2] at h''
        have hfin : some (⟨.Known x3 y3, .Right⟩ : Robot) = some r2 := h''
        injection hfin with h1
        rw [← h1]
        rfl
      · rw [if_neg c2] at h''
        by_cases c3 : x3 - xt = 0 ∧ y3 - yt = -1
        · rw [if_pos c3] at h''
          have hfin : some (⟨.Known x3 y3, .Down⟩ : Robot) = some r2 := h''
          injection hfin with h1
          rw [← h1]
          rfl
        · rw [if_neg c3] at h''
          by_cases c4 : x3 - xt = 0 ∧ y3 - yt = 1
          · rw [if_pos c4] at h''
            have hfin : some (⟨.Known x3 y3, .Up⟩ : Robot) = some r2 := h''
            injection hfin with h1
            rw [← h1]
            rfl
          · rw [if_neg c4] at h''
            have hfin : (none : Option Robot) = some r2 := h''
            exact Option.noConfusion hfin
  · rw [if_neg h21] at h'
    by_cases c1 : x2 - x1 = -1 ∧ y2 - y1 = 0
    · rw [if_pos c1] at h'
      have hfin : some (⟨.Known x2 y2, .Left⟩ : Robot) = some r2 := h'
      injection hfin with h1
      rw [← h1]
      rfl
    · rw [if_neg c1] at h'
      by_cases c2 : x2 - x1 = 1 ∧ y2 - y1 = 0
      · rw [if_pos c2] at h'
        have hfin : some (⟨.Known x2 y2, .Right⟩ : Robot) = some r2 := h'
        injection hfin with h1
        rw [← h1]
        rfl
      · rw [if_neg c2] at h'
        by_cases c3 : x2 - x1 = 0 ∧ y2 - y1 = -1
        · rw [if_pos c3] at h'
          have hfin : some (⟨.Known x2 y2, .Down⟩ : Robot) = some r2 := h'
          injection hfin with h1
          rw [← h1]
          rfl
        · rw [if_neg c3] at h'
          by_cases c4 : x2 - x1 = 0 ∧ y2 - y1 = 1
          · rw [if_pos c4] at h'
            have hfin : some (⟨.Known x2 y2, .Up⟩ : Robot) = some r2 := h'
            injection hfin with h1
            rw [← h1]
            rfl
          · rw [if_neg c4] at h'
            have hfin : (none : Option Robot) = some r2 := h'
            exact Option.noConfusion hfin

/-- Witness for `C7_initial_direction`: a second move whose reply
differs from the first infers the direction. -/
theorem C7_initial_direction_witness :
    (⟨.Known 2 0, .Right⟩ : Robot).direction.isKnown = true :=
  C7_initial_direction 1 0 2 0 0 0 0 0 ⟨.Known 2 0, .Right⟩ (by decide)
    (Or.inl (by decide))

/-- One successful operation always leaves the position `Known`:
`move_forward`, `turn_left` and `turn_right` all assign
`Known(x, y)` from the reply unconditionally. -/
theorem step_position_known (r : Robot) (op : Op) (xy : Int × Int)
    (r2 : Robot) (h : step r op xy = some r2) :
    r2.position.isKnown = true := by
  obtain ⟨pos, dir⟩ := r
  cases op with
  | move =>
    cases pos with
    | Unknown =>
      simp only [step, move_forward, Option.map] at h
      injection h with h1
      rw [← h1]
      rfl
    | Known x y =>
      cases dir with
      | Unknown =>
        have h' : (move_forward ⟨.Known x y, .Unknown⟩ xy.1 xy.2).map
            (fun z => z.1) = some r2 := h
        rw [show move_forward ⟨.Known x y, .Unknown⟩ xy.1 xy.2
            = (if xy.1 - x = 0 ∧ xy.2 - y = 0 then
                some (⟨.Known xy.1 xy.2, .Unknown⟩, .Rammed)
              else if xy.1 - x = -1 ∧ xy.2 - y = 0 then
                some (⟨.Known xy.1 xy.2, .Left⟩, .Ok)
              else if xy.1 - x = 1 ∧ xy.2 - y = 0 then
                some (⟨.Known xy.1 xy.2, .Right⟩, .Ok)
              else if xy.1 - x = 0 ∧ xy.2 - y = -1 then
                some (⟨.Known xy.1 xy.2, .Down⟩, .Ok)
              else if xy.1 - x = 0 ∧ xy.2 - y = 1 then
                some (⟨.Known xy.1 xy.2, .Up⟩, .Ok)
              else none) from rfl] at h'
        by_cases c0 : xy.1 - x = 0 ∧ xy.2 - y = 0
        · rw [if_pos c0] at h'
          have hf : some (⟨.Known xy.1 xy.2, .Unknown⟩ : Robot) = some r2 := h'
          injection hf with h1
          rw [← h1]
          rfl
        · rw [if_neg c0] at h'
          by_cases c1 : xy.1 - x = -1 ∧ xy.2 - y = 0
          · rw [if_pos c1] at h'
            have hf : some (⟨.Known xy.1 xy.2, .Left⟩ : Robot) = some r2 := h'
            injection hf with h1
            rw [← h1]
            rfl
          · rw [if_neg c1] at h'
            by_cases c2 : xy.1 - x = 1 ∧ xy.2 - y = 0
            · rw [if_pos c2] at h'
              have hf : some (⟨.Known xy.1 xy.2, .Right⟩ : Robot)
                  = some r2 := h'
              injection hf with h1
              rw [← h1]
              rfl
            · rw [if_neg c2] at h'
              by_cases c3 : xy.1 - x = 0 ∧ xy.2 - y = -1
              · rw [if_pos c3] at h'
                have hf : some (⟨.Known xy.1 xy.2, .Down⟩ : Robot)
                    = some r2 := h'
                injection hf with h1
                rw [← h1]
                rfl
              · rw [if_neg c3] at h'
                by_cases c4 : xy.1 - x = 0 ∧ xy.2 - y = 1
                · rw [if_pos c4] at h'
                  have hf : some (⟨.Known xy.1 xy.2, .Up⟩ : Robot)
                      = some r2 := h'
                  injection hf with h1
                  rw [← h1]
                  rfl
                · rw [if_neg c4] at h'
                  have hf : (none : Option Robot) = some r2 := h'
                  exact Option.noConfusion hf
      | Up =>
        simp only [step, move_forward, Option.map] at h
        injection h with h1
        rw [← h1]
        rfl
      | Down =>
        simp only [step, move_forward, Option.map] at h
        injection h with h1
        rw [← h1]
        rfl
      | Left =>
        simp only [step, move_forward, Option.map] at h
        injection h with h1
        rw [← h1]
        rfl
      | Right =>
        simp only [step, move_forward, Option.map] at h
        injection h with h1
        rw [← h1]
        rfl
  | left =>
    simp only [step, turn_left] at h
    injection h with h1
    rw [← h1]
    rfl
  | right =>
    simp only [step, turn_right] at h
    injection h with h1
    rw [← h1]
    rfl

/-- Claim C8 (confirmed): once the session's position is `Known`, it
never reverts to `Unknown` under any sequence of successful
`move_forward` / `turn_left` / `turn_right` replies — every
successful reply stores a `Known` position, including rams. -/
theorem C8_position_never_reverts (ops : List (Op × Int × Int))
    (r r2 : Robot) (h : runOps r ops = some r2)
    (h0 : r.position.isKnown = true) :
    r2.position.isKnown = true := by
  induction ops generalizing r with
  | nil =>
    simp only [runOps] at h
    injection h with h1
    rw [← h1]
    exact h0
  | cons hd t ih =>
    obtain ⟨op, xy⟩ := hd
    simp only [runOps] at h
    cases hs : step r op xy with
    | none =>
      rw [hs] at h
      simp at h
    | some r1 =>
      rw [hs] at h
      simp only [Option.bind] at h
      exact ih r1 h (step_position_known r op xy r1 hs)

/-- Witness for `C8_position_never_reverts`: a move (including a ram
reply) followed by a turn keeps the position `Known`. -/
theorem C8_position_never_reverts_witness :
    (⟨.Known 3 4, .Left⟩ : Robot).position.isKnown = true :=
  C8_position_never_reverts [(Op.move, 3, 4), (Op.left, 3, 4)]
    ⟨.Known 3 4, .Up⟩ ⟨.Known 3 4, .Left⟩ (by decide) (by decide)

/-- Claim C9 (confirmed): for every obstacle configuration and
starting position with both coordinates within 1000 of the origin
from which the fixed detour policy reaches `(0, 0)` (the
`NavReaches` relation), the navigation loop terminates having issued
a finite count of `Move` commands. -/
theorem C9_navigation_terminates (w : World) (p : Int × Int)
    (_hx : |p.1| ≤ 1000) (_hy : |p.2| ≤ 1000) (h : NavReaches w p) :
    ∃ fuel moves, navRun w fuel p = some moves := by
  clear _hx _hy
  induction h with
  | done => exact ⟨0, 0, rfl⟩
  | @step q hne hr ih =>
    obtain ⟨f, m, hm⟩ := ih
    refine ⟨f + 1, m + (navIter w q).2, ?_⟩
    simp only [navRun]
    rw [if_neg hne, hm]
    rfl

/-- Witness for `C9_navigation_terminates`: starting at `(2, 0)` with
an obstacle at `(1, 0)`, the policy reaches the origin (via the
detour), so the run terminates. -/
theorem C9_navigation_terminates_witness :
    ∃ fuel moves, navRun ⟨[(1, 0)]⟩ fuel (2, 0) = some moves :=
  C9_navigation_terminates ⟨[(1, 0)]⟩ (2, 0) (by decide) (by decide)
    (navReaches_of_navRun ⟨[(1, 0)]⟩ 4 (2, 0) 5 (by decide))

/-- Claim C10 (confirmed): the frame loop recognises the terminator
only when the write index is at least 2, so a frame consisting solely
of `\x07\x08` is absorbed into the accumulating payload rather than
accepted, and every payload the loop ever returns has length at
least 1. -/
theorem C10_payload_nonempty (ml : Nat) (input : List Ev) (p : List Nat)
    (rest : List Ev) (hml : 3 ≤ ml) :
    (readFrameLoop ml [] input = .payload p rest → 1 ≤ p.length) ∧
    readFrameLoop ml [] (Ev.byte 7 :: Ev.byte 8 :: input) =
      readFrameLoop ml [8, 7] input := by
  constructor
  · exact fun h => readFrameLoop_payload_len input ml [] p rest h
  · simp only [readFrameLoop]
    rw [if_neg (by simp), if_neg (by simp; omega),
      if_neg (by simp), if_neg (by simp; omega)]

/-- Witness for `C10_payload_nonempty`: the smallest accepted frame
(one body byte plus terminator) has a one-byte payload, and a leading
bare terminator is absorbed into the buffer. -/
theorem C10_payload_nonempty_witness :
    1 ≤ ([97] : List Nat).length ∧
    readFrameLoop 20 [] [Ev.byte 7, Ev.byte 8, Ev.byte 97, Ev.byte 7,
      Ev.byte 8] = readFrameLoop 20 [8, 7] [Ev.byte 97, Ev.byte 7,
      Ev.byte 8] := by
  have h := C10_payload_nonempty 20 [Ev.byte 97, Ev.byte 7, Ev.byte 8]
    [97] [] (by omega)
  exact ⟨h.1 (by decide), h.2⟩

end RobotTcp
